import Mathlib

/-
Verification of the Omega messaging and compute contracts
(src/contracts/messaging/src/lib.rs and src/contracts/compute-stylus/src/lib.rs)
against their natural-language specification.

Shallow embedding conventions:
- U256 values are Nat; the wrapping addition of alloy U256 is made explicit as
  addition followed by reduction modulo 2 ^ 256.
- Addresses are Nat (the 160-bit address space embeds into Nat; only equality
  and pass-through are used).
- Storage maps (StorageMap) are total functions with the zero-value defaults of
  EVM storage: the empty string for StorageString, 0 for StorageAddress.
- Fallible entrypoints return Except values carrying structured errors that
  mirror the sol! error declarations (MessageNotFound, BridgeCallFailed,
  EmptyMessage).
- The externally observable behaviour of bridge_message (the storage-cache
  flush and the external relay call) is recorded as an explicit action trace so
  that ordering properties can be stated.
-/

namespace Omega

/-- The modulus of U256 arithmetic. -/
def u256Mod : Nat := 2 ^ 256

/-- ArbSys precompile address (src/contracts/messaging/src/lib.rs lines 52-56):
twenty bytes, all zero except the last, which is 0x64. -/
def arbsysAddr : Nat := 0x64

/-- UTF-8 bytes of a string, modelling Rust str::as_bytes (message contents are
encoded this way for the bridge payload, lib.rs line 175). -/
def strBytes (s : String) : List Nat := s.toUTF8.data.toList.map (fun b => b.toNat)

/-- Rust Debug rendering of a Vec of bytes, for example "[1, 2, 3]". -/
def natListRepr (l : List Nat) : String :=
  "[" ++ String.intercalate ", " (l.map (fun n => toString n)) ++ "]"

/-- Bytes of the Debug rendering of the stylus call error Revert(e), modelling
the expression alloc::format of the error followed by into_bytes
(lib.rs line 196). -/
def formatRevert (e : List Nat) : List Nat :=
  strBytes ("Revert(" ++ natListRepr e ++ ")")

/-- Big-endian 32-byte rendering of a U256, modelling U256::to_be_bytes
(lib.rs line 186). -/
def toBE32 (t : Nat) : List Nat :=
  (List.range 32).map (fun i => t / 2 ^ (8 * (31 - i)) % 256)

/-- The structured errors declared in the sol! block (lib.rs lines 31-38). -/
inductive Err where
  | emptyMessage : Err
  | messageNotFound (id : Nat) : Err
  | bridgeCallFailed (reason : List Nat) : Err
  deriving DecidableEq

/-- The events declared in the sol! block (lib.rs lines 25-29). -/
inductive Event where
  | messageSent (id : Nat) (sender : Nat) (content : String) : Event
  | messageBridged (id : Nat) (bridgeTxHash : List Nat) : Event
  deriving DecidableEq

/-- Observable actions of bridge_message, in source order: the existence check
(line 160), the content read (line 165), the storage-cache flush (line 171) and
the external relay call (line 183). -/
inductive Action where
  | checkExists (id : Nat) : Action
  | readContent (id : Nat) : Action
  | flushStorage : Action
  | callRelay (target : Nat) (destination : Nat) (payload : List Nat) : Action
  deriving DecidableEq

/-- Whether an action is the external relay call. -/
def Action.isCall : Action → Bool
  | Action.callRelay _ _ _ => true
  | _ => false

/-- Outcome of the external ArbSys call: either a ticket id (the U256 returned
by sendTxToL1) or a revert carrying opaque diagnostic bytes. -/
inductive RelayOutcome where
  | success (ticket : Nat) : RelayOutcome
  | failure (err : List Nat) : RelayOutcome
  deriving DecidableEq

/-- Storage of MessagingContract (lib.rs lines 70-74): messages and senders maps
and the message_count counter.  Unset map slots hold the storage defaults. -/
structure MsgState where
  messages : Nat → String
  senders : Nat → Nat
  count : Nat

/-- Freshly initialized storage: empty maps, counter zero. -/
def initState : MsgState :=
  { messages := fun _ => "", senders := fun _ => 0, count := 0 }

/-- message_count getter (lib.rs lines 137-139). -/
def message_count (s : MsgState) : Nat := s.count

/-- Result of send_message: post state, returned value, emitted events. -/
structure SendResult where
  state : MsgState
  result : Except Err Nat
  events : List Event

/-- send_message (lib.rs lines 89-110).  Rejects empty content; otherwise
allocates id := message_count, advances the counter (U256 wrapping add),
persists content and sender, and emits MessageSent. -/
def send_message (s : MsgState) (sender : Nat) (content : String) : SendResult :=
  if content = "" then
    { state := s, result := Except.error Err.emptyMessage, events := [] }
  else
    { state :=
        { messages := fun k => if k = s.count then content else s.messages k,
          senders := fun k => if k = s.count then sender else s.senders k,
          count := (s.count + 1) % u256Mod },
      result := Except.ok s.count,
      events := [Event.messageSent s.count sender content] }

/-- get_message (lib.rs lines 116-121). -/
def get_message (s : MsgState) (id : Nat) : Except Err String :=
  if message_count s ≤ id then Except.error (Err.messageNotFound id)
  else Except.ok (s.messages id)

/-- get_sender (lib.rs lines 127-132). -/
def get_sender (s : MsgState) (id : Nat) : Except Err Nat :=
  if message_count s ≤ id then Except.error (Err.messageNotFound id)
  else Except.ok (s.senders id)

/-- Result of bridge_message: post state, returned value, emitted events and
the trace of observable actions in execution order. -/
structure BridgeResult where
  state : MsgState
  result : Except Err Unit
  events : List Event
  actions : List Action

/-- bridge_message (lib.rs lines 158-203).  Checks existence, reads the
content, flushes the storage cache, calls ArbSys.sendTxToL1 at the fixed
address with destination msg::sender and the content bytes as payload, then
either emits MessageBridged (success) or fails with BridgeCallFailed carrying
the Debug rendering of the call error.  It performs no storage writes. -/
def bridge_message (s : MsgState) (caller : Nat) (relay : RelayOutcome) (id : Nat) :
    BridgeResult :=
  if message_count s ≤ id then
    { state := s, result := Except.error (Err.messageNotFound id), events := [],
      actions := [Action.checkExists id] }
  else
    match relay with
    | RelayOutcome.success ticket =>
        { state := s, result := Except.ok (),
          events := [Event.messageBridged id (toBE32 ticket)],
          actions := [Action.checkExists id, Action.readContent id, Action.flushStorage,
            Action.callRelay arbsysAddr caller (strBytes (s.messages id))] }
    | RelayOutcome.failure e =>
        { state := s, result := Except.error (Err.bridgeCallFailed (formatRevert e)),
          events := [],
          actions := [Action.checkExists id, Action.readContent id, Action.flushStorage,
            Action.callRelay arbsysAddr caller (strBytes (s.messages id))] }

/-- One externally callable operation of the messaging contract, used to state
properties over arbitrary later call sequences. -/
inductive Op where
  | send (content : String) (sender : Nat) : Op
  | bridge (id : Nat) (caller : Nat) (relay : RelayOutcome) : Op
  | getMsg (id : Nat) : Op
  | getSender (id : Nat) : Op
  | msgCount : Op

/-- State transition of one operation.  The read-only entrypoints take the
storage by shared reference and leave it unchanged. -/
def step (s : MsgState) : Op → MsgState
  | Op.send c a => (send_message s a c).state
  | Op.bridge id caller r => (bridge_message s caller r id).state
  | Op.getMsg _ => s
  | Op.getSender _ => s
  | Op.msgCount => s

/-- Run a sequence of operations. -/
def applyOps (ops : List Op) (s : MsgState) : MsgState := ops.foldl step s

/-- Number of operations in a sequence that store a message (successful
send_message calls, that is sends with nonempty content). -/
def numSends : List Op → Nat
  | [] => 0
  | Op.send c _ :: rest => (if c = "" then 0 else 1) + numSends rest
  | _ :: rest => numSends rest

/-- Run a sequence of send_message calls, returning the final state and the
list of returned values in call order. -/
def sendAll : List (String × Nat) → MsgState → MsgState × List (Except Err Nat)
  | [], s => (s, [])
  | (c, a) :: rest, s =>
      let r := send_message s a c
      let res := sendAll rest r.state
      (res.1, r.result :: res.2)

/-- Storage of ComputeContract (compute-stylus lib.rs lines 38-40). -/
structure ComputeState where
  callCount : Nat

/-- Event of the compute contract (compute-stylus lib.rs lines 23-26). -/
inductive CEvent where
  | computeCompleted (iterations : Nat) (finalHash : List Nat) : CEvent
  deriving DecidableEq

/-- The two contracts have disjoint storage; a world holds both, so that
non-interference of the compute contract with the message store is statable. -/
structure World where
  msgS : MsgState
  cmp : ComputeState

/-- Freshly deployed world. -/
def initWorld : World := { msgS := initState, cmp := { callCount := 0 } }

/-- The fixed seed bytes (compute-stylus lib.rs line 58). -/
def seedBytes : List Nat := strBytes "stylus-compute-bench"

/-- compute_hash (compute-stylus lib.rs lines 56-79), parametric in the keccak
primitive (library code external to this repository).  The requested U256
iteration count is converted with saturating_to to u64, so the loop runs
min(iterations, 2 ^ 64 - 1) rounds.  Increments the call counter (U256
wrapping add) and emits ComputeCompleted.  Only the compute storage is
touched. -/
def compute_hash (keccak : List Nat → List Nat) (w : World) (iterations : Nat) :
    World × List Nat × List CEvent :=
  let n := min iterations (2 ^ 64 - 1)
  let finalHash := (List.range n).foldl (fun h _ => keccak h) (keccak seedBytes)
  ({ msgS := w.msgS, cmp := { callCount := (w.cmp.callCount + 1) % u256Mod } },
   finalHash,
   [CEvent.computeCompleted iterations finalHash])

/-- call_count getter (compute-stylus lib.rs lines 82-84). -/
def call_count (w : World) : Nat := w.cmp.callCount

/-- Follows the spec sentence defining the iterated hash: hash_0 is
keccak256 of the seed "stylus-compute-bench" and hash_i is keccak256 of
hash_(i-1); used as the specification side of the refinement of
compute_hash. -/
def specHashRounds (keccak : List Nat → List Nat) : Nat → List Nat
  | 0 => keccak seedBytes
  | n + 1 => keccak (specHashRounds keccak n)

/-- A concrete injective stand-in for the abstract hash primitive, used to
exhibit counterexamples that do not depend on keccak internals. -/
def consZero (l : List Nat) : List Nat := 0 :: l

/-- A sequence of 2 ^ 256 successful submissions, long enough to wrap the
U256 message counter. -/
def ceCalls : List (String × Nat) := List.replicate u256Mod ("x", 1)

/-- Later operations that wrap the counter and then store one more message,
which lands on the already-used id 0. -/
def ceOps : List Op :=
  List.replicate (u256Mod - 1) (Op.send "x" 1) ++ [Op.send "b" 2]

/-- A state holding exactly one message, used by concrete witnesses. -/
def s0 : MsgState := (send_message initState 7 "hello").state

/-- A small mixed sequence of later operations, used by concrete witnesses. -/
def wOps : List Op :=
  [Op.getMsg 0, Op.send "yo" 6, Op.bridge 0 9 (RelayOutcome.success 3), Op.msgCount]

/-! ### Helper lemmas -/

theorem send_message_of_ne (s : MsgState) (a : Nat) (c : String) (hc : c ≠ "") :
    send_message s a c =
      { state :=
          { messages := fun k => if k = s.count then c else s.messages k,
            senders := fun k => if k = s.count then a else s.senders k,
            count := (s.count + 1) % u256Mod },
        result := Except.ok s.count,
        events := [Event.messageSent s.count a c] } := by
  unfold send_message
  rw [if_neg hc]

theorem bridge_state_eq (s : MsgState) (caller : Nat) (relay : RelayOutcome) (id : Nat) :
    (bridge_message s caller relay id).state = s := by
  unfold bridge_message
  split
  · rfl
  · cases relay <;> rfl

theorem applyOps_nil (s : MsgState) : applyOps [] s = s := rfl

theorem applyOps_cons (op : Op) (rest : List Op) (s : MsgState) :
    applyOps (op :: rest) s = applyOps rest (step s op) := rfl

theorem applyOps_append (l1 l2 : List Op) (s : MsgState) :
    applyOps (l1 ++ l2) s = applyOps l2 (applyOps l1 s) :=
  List.foldl_append step s l1 l2

theorem step_bridge_eq (s : MsgState) (id caller : Nat) (r : RelayOutcome) :
    step s (Op.bridge id caller r) = s :=
  bridge_state_eq s caller r id

/-! ### C5 -/

/-- C5: send_message with empty content fails with EmptyMessage and causes no
state change: the contents map, the senders map and message_count are all
untouched. -/
theorem send_empty_atomic (s : MsgState) (a : Nat) :
    (send_message s a "").result = Except.error Err.emptyMessage ∧
    (send_message s a "").state.messages = s.messages ∧
    (send_message s a "").state.senders = s.senders ∧
    message_count (send_message s a "").state = message_count s :=
  ⟨rfl, rfl, rfl, rfl⟩

/-! ### C10 -/

/-- C10: bridge_message never modifies the contract's own storage: for every
id, caller and relay outcome the contents map, the senders map and
message_count are identical before and after the call. -/
theorem bridge_frame (s : MsgState) (caller : Nat) (relay : RelayOutcome) (id : Nat) :
    (bridge_message s caller relay id).state.messages = s.messages ∧
    (bridge_message s caller relay id).state.senders = s.senders ∧
    message_count (bridge_message s caller relay id).state = message_count s := by
  rw [bridge_state_eq]
  exact ⟨rfl, rfl, rfl⟩

/-! ### C4 -/

/-- C4: get_message and get_sender fail with NotFound(id) if and only if
id ≥ message_count() at call time, the failing id being echoed in the error;
both are pure reads leaving the storage unchanged. -/
theorem get_notfound_iff (s : MsgState) (id : Nat) :
    (get_message s id = Except.error (Err.messageNotFound id) ↔ message_count s ≤ id) ∧
    (get_sender s id = Except.error (Err.messageNotFound id) ↔ message_count s ≤ id) ∧
    step s (Op.getMsg id) = s ∧ step s (Op.getSender id) = s := by
  refine ⟨⟨?_, ?_⟩, ⟨?_, ?_⟩, rfl, rfl⟩
  · intro h
    by_cases hle : message_count s ≤ id
    · exact hle
    · exfalso
      unfold get_message at h
      rw [if_neg hle] at h
      exact Except.noConfusion h
  · intro h
    unfold get_message
    rw [if_pos h]
  · intro h
    by_cases hle : message_count s ≤ id
    · exact hle
    · exfalso
      unfold get_sender at h
      rw [if_neg hle] at h
      exact Except.noConfusion h
  · intro h
    unfold get_sender
    rw [if_pos h]

/-- Witness for C4 applied at a concrete state and id. -/
theorem get_notfound_iff_witness :
    get_message initState 0 = Except.error (Err.messageNotFound 0) :=
  (get_notfound_iff initState 0).1.mpr (by decide)

/-! ### C6 -/

/-- C6: bridge_message on an id at or beyond message_count fails with
NotFound(id) carrying the requested id and performs no external relay call. -/
theorem bridge_notfound_no_call (s : MsgState) (caller : Nat) (relay : RelayOutcome) (id : Nat)
    (h : message_count s ≤ id) :
    (bridge_message s caller relay id).result = Except.error (Err.messageNotFound id) ∧
    ∀ x ∈ (bridge_message s caller relay id).actions, x.isCall = false := by
  unfold bridge_message
  rw [if_pos h]
  refine ⟨rfl, ?_⟩
  intro x hx
  simp only [List.mem_singleton] at hx
  subst hx
  rfl

/-- Witness for C6 at a concrete out-of-range id. -/
theorem bridge_notfound_no_call_witness :
    message_count initState ≤ 5 ∧
    ((bridge_message initState 9 (RelayOutcome.failure [1]) 5).result =
        Except.error (Err.messageNotFound 5) ∧
      ∀ x ∈ (bridge_message initState 9 (RelayOutcome.failure [1]) 5).actions,
        x.isCall = false) :=
  ⟨by decide, bridge_notfound_no_call initState 9 (RelayOutcome.failure [1]) 5 (by decide)⟩

/-! ### C1 -/

/-- C1: in every execution of bridge_message on an existing id, the commit
barrier (storage flush) happens strictly before the external relay call, the
existence check and the content read also precede the call, and no external
call occurs anywhere else in the execution. -/
theorem bridge_commit_barrier (s : MsgState) (caller : Nat) (relay : RelayOutcome) (id : Nat)
    (h : id < message_count s) :
    ∃ pre post,
      (bridge_message s caller relay id).actions =
        pre ++ Action.callRelay arbsysAddr caller (strBytes (s.messages id)) :: post ∧
      Action.checkExists id ∈ pre ∧ Action.readContent id ∈ pre ∧
      Action.flushStorage ∈ pre ∧
      (∀ x ∈ pre, x.isCall = false) ∧ (∀ x ∈ post, x.isCall = false) := by
  refine ⟨[Action.checkExists id, Action.readContent id, Action.flushStorage], [],
    ?_, ?_, ?_, ?_, ?_, ?_⟩
  · unfold bridge_message
    rw [if_neg (not_le.mpr h)]
    cases relay <;> rfl
  · simp
  · simp
  · simp
  · intro x hx
    simp only [List.mem_cons, List.not_mem_nil, or_false] at hx
    rcases hx with rfl | rfl | rfl <;> rfl
  · intro x hx
    simp at hx

/-- Witness for C1 at a concrete one-message state. -/
theorem bridge_commit_barrier_witness :
    0 < message_count s0 ∧
    (∃ pre post,
      (bridge_message s0 9 (RelayOutcome.success 3) 0).actions =
        pre ++ Action.callRelay arbsysAddr 9 (strBytes (s0.messages 0)) :: post ∧
      Action.checkExists 0 ∈ pre ∧ Action.readContent 0 ∈ pre ∧
      Action.flushStorage ∈ pre ∧
      (∀ x ∈ pre, x.isCall = false) ∧ (∀ x ∈ post, x.isCall = false)) :=
  ⟨by decide, bridge_commit_barrier s0 9 (RelayOutcome.success 3) 0 (by decide)⟩

/-! ### C7 -/

/-- C7: on a valid id, when the relay reports an error, bridge_message fails
with BridgeCallFailed whose reason is the Debug rendering of the diagnostic
the relay supplied; the storage (hence the message) is unchanged and the same
id can be bridged again successfully afterward. -/
theorem bridge_relay_failure (s : MsgState) (caller : Nat) (id : Nat) (e : List Nat)
    (h : id < message_count s) :
    (bridge_message s caller (RelayOutcome.failure e) id).result =
      Except.error (Err.bridgeCallFailed (formatRevert e)) ∧
    (bridge_message s caller (RelayOutcome.failure e) id).state = s ∧
    get_message (bridge_message s caller (RelayOutcome.failure e) id).state id =
      get_message s id ∧
    ∀ t, (bridge_message (bridge_message s caller (RelayOutcome.failure e) id).state caller
        (RelayOutcome.success t) id).result = Except.ok () := by
  have hs := bridge_state_eq s caller (RelayOutcome.failure e) id
  refine ⟨?_, hs, by rw [hs], ?_⟩
  · unfold bridge_message
    rw [if_neg (not_le.mpr h)]
  · intro t
    rw [hs]
    unfold bridge_message
    rw [if_neg (not_le.mpr h)]

/-- Witness for C7 at a concrete one-message state and failing relay. -/
theorem bridge_relay_failure_witness :
    0 < message_count s0 ∧
    ((bridge_message s0 9 (RelayOutcome.failure [1, 2]) 0).result =
        Except.error (Err.bridgeCallFailed (formatRevert [1, 2])) ∧
      (bridge_message s0 9 (RelayOutcome.failure [1, 2]) 0).state = s0 ∧
      get_message (bridge_message s0 9 (RelayOutcome.failure [1, 2]) 0).state 0 =
        get_message s0 0 ∧
      ∀ t, (bridge_message (bridge_message s0 9 (RelayOutcome.failure [1, 2]) 0).state 9
          (RelayOutcome.success t) 0).result = Except.ok ()) :=
  ⟨by decide, bridge_relay_failure s0 9 0 [1, 2] (by decide)⟩

/-! ### C8 -/

/-- C8: every successful send_message emits exactly one MessageSent carrying
the assigned id, the sender and the content; every successful bridge_message
emits exactly one MessageBridged carrying the id and the relay ticket as
big-endian bytes32; no notification is emitted on a failed call. -/
theorem notifications_exact (s : MsgState) (a : Nat) (c : String) (caller id t : Nat) :
    (∀ i, (send_message s a c).result = Except.ok i →
      (send_message s a c).events = [Event.messageSent i a c]) ∧
    (∀ er, (send_message s a c).result = Except.error er →
      (send_message s a c).events = []) ∧
    ((bridge_message s caller (RelayOutcome.success t) id).result = Except.ok () →
      (bridge_message s caller (RelayOutcome.success t) id).events =
        [Event.messageBridged id (toBE32 t)]) ∧
    (∀ r er, (bridge_message s caller r id).result = Except.error er →
      (bridge_message s caller r id).events = []) := by
  refine ⟨?_, ?_, ?_, ?_⟩
  · intro i hi
    by_cases hc : c = ""
    · subst hc
      exact absurd hi (by simp [send_message])
    · rw [send_message_of_ne s a c hc] at hi
      simp only [Except.ok.injEq] at hi
      rw [send_message_of_ne s a c hc, hi]
  · intro er her
    by_cases hc : c = ""
    · subst hc
      rfl
    · rw [send_message_of_ne s a c hc] at her
      simp at her
  · intro hok
    by_cases hid : message_count s ≤ id
    · exfalso
      unfold bridge_message at hok
      rw [if_pos hid] at hok
      simp at hok
    · unfold bridge_message
      rw [if_neg hid]
  · intro r er her
    by_cases hid : message_count s ≤ id
    · unfold bridge_message
      rw [if_pos hid]
    · cases r with
      | success t2 =>
          exfalso
          unfold bridge_message at her
          rw [if_neg hid] at her
          simp at her
      | failure e =>
          unfold bridge_message
          rw [if_neg hid]

/-- Witness for C8: a concrete successful submission and its notification. -/
theorem notifications_exact_witness :
    (send_message initState 5 "hi").result = Except.ok 0 ∧
    (send_message initState 5 "hi").events = [Event.messageSent 0 5 "hi"] :=
  ⟨rfl, (notifications_exact initState 5 "hi" 0 0 0).1 0 rfl⟩

/-! ### Counter lemmas shared by C2 and C3 -/

theorem u256Mod_pos : 0 < u256Mod := by norm_num [u256Mod]

theorem sendAll_nil (s : MsgState) : sendAll [] s = (s, []) := rfl

theorem sendAll_cons (c : String) (a : Nat) (rest : List (String × Nat)) (s : MsgState) :
    sendAll ((c, a) :: rest) s =
      ((sendAll rest (send_message s a c).state).1,
       (send_message s a c).result :: (sendAll rest (send_message s a c).state).2) := rfl

/-- Below the wrap bound, a run of nonempty submissions returns consecutive
ids starting at the current counter and advances the counter by its length. -/
theorem sendAll_ids (calls : List (String × Nat)) :
    ∀ s : MsgState, (∀ p ∈ calls, p.1 ≠ "") → s.count + calls.length < u256Mod →
      (sendAll calls s).2 = (List.range' s.count calls.length).map Except.ok ∧
      (sendAll calls s).1.count = s.count + calls.length := by
  induction calls with
  | nil =>
      intro s _ _
      simp [sendAll]
  | cons p rest ih =>
      obtain ⟨c, a⟩ := p
      intro s hne hb
      have hc : c ≠ "" := hne (c, a) (List.mem_cons_self _ _)
      simp only [List.length_cons] at hb
      have hlt : s.count + 1 < u256Mod := by omega
      have hcount : (send_message s a c).state.count = s.count + 1 := by
        rw [send_message_of_ne s a c hc]
        exact Nat.mod_eq_of_lt hlt
      have hres : (send_message s a c).result = Except.ok s.count := by
        rw [send_message_of_ne s a c hc]
      obtain ⟨ih1, ih2⟩ := ih (send_message s a c).state
        (fun q hq => hne q (List.mem_cons_of_mem _ hq))
        (by rw [hcount]; omega)
      constructor
      · rw [sendAll_cons]
        simp only [List.length_cons, List.range'_succ, List.map_cons]
        rw [hres, ih1, hcount]
      · rw [sendAll_cons]
        simp only []
        rw [ih2, hcount, List.length_cons]
        omega

/-- Running any number of nonempty submissions advances the counter modulo
2 ^ 256 and every call succeeds, provided the run wraps at most once. -/
theorem sendAll_count_mod (calls : List (String × Nat)) :
    ∀ s : MsgState, (∀ p ∈ calls, p.1 ≠ "") → s.count < u256Mod →
      s.count + calls.length ≤ u256Mod →
      (sendAll calls s).1.count = (s.count + calls.length) % u256Mod ∧
      ∀ r ∈ (sendAll calls s).2, ∃ i, r = Except.ok i := by
  induction calls with
  | nil =>
      intro s _ hlt _
      refine ⟨?_, by simp [sendAll]⟩
      simp only [sendAll, List.length_nil, Nat.add_zero]
      exact (Nat.mod_eq_of_lt hlt).symm
  | cons p rest ih =>
      obtain ⟨c, a⟩ := p
      intro s hne hlt hb
      have hc : c ≠ "" := hne (c, a) (List.mem_cons_self _ _)
      simp only [List.length_cons] at hb
      have hcount : (send_message s a c).state.count = (s.count + 1) % u256Mod := by
        rw [send_message_of_ne s a c hc]
      have hlt2 : (send_message s a c).state.count < u256Mod := by
        rw [hcount]
        exact Nat.mod_lt _ u256Mod_pos
      have hb2 : (send_message s a c).state.count + rest.length ≤ u256Mod := by
        rw [hcount]
        by_cases hw : s.count + 1 < u256Mod
        · rw [Nat.mod_eq_of_lt hw]
          omega
        · have he : s.count + 1 = u256Mod := by omega
          have hr0 : rest.length = 0 := by omega
          rw [he, Nat.mod_self, hr0]
          exact Nat.zero_le _
      obtain ⟨ih1, ih2⟩ := ih (send_message s a c).state
        (fun q hq => hne q (List.mem_cons_of_mem _ hq)) hlt2 hb2
      constructor
      · rw [sendAll_cons]
        simp only []
        rw [ih1, hcount, Nat.mod_add_mod]
        have he : s.count + 1 + rest.length = s.count + (rest.length + 1) := by omega
        rw [he, List.length_cons]
      · rw [sendAll_cons]
        intro r hr
        rcases List.mem_cons.mp hr with h | h
        · exact ⟨s.count, by rw [h, send_message_of_ne s a c hc]⟩
        · exact ih2 r h

/-! ### C2 -/

/-- Counterexample to C2 as stated: 2 ^ 256 successful send_message calls
from a fresh store, after which message_count is not 2 ^ 256 — the U256
counter has wrapped back to 0. -/
theorem send_ids_wrap_counterexample :
    (∀ r ∈ (sendAll ceCalls initState).2, ∃ i, r = Except.ok i) ∧
    message_count (sendAll ceCalls initState).1 ≠ ceCalls.length := by
  have hne : ∀ p ∈ ceCalls, p.1 ≠ "" := by
    intro p hp
    simp only [ceCalls] at hp
    have h := List.eq_of_mem_replicate hp
    rw [h]
    decide
  have hlen : ceCalls.length = u256Mod := by simp [ceCalls]
  obtain ⟨h1, h2⟩ := sendAll_count_mod ceCalls initState hne
    (by simp only [initState]; exact u256Mod_pos)
    (by simp [initState, hlen])
  refine ⟨h2, ?_⟩
  rw [message_count, h1, hlen]
  simp only [initState, Nat.zero_add, Nat.mod_self]
  have := u256Mod_pos
  omega

/-- C2 (amended): for every sequence of N successful send_message calls with
N < 2 ^ 256, starting from a freshly initialized store, the returned
identifiers are exactly 0, 1, ..., N-1 in call order and message_count()
afterward equals N.  (At N = 2 ^ 256 the U256 counter wraps; see the
counterexample.) -/
theorem send_ids_sequential (calls : List (String × Nat))
    (h1 : ∀ p ∈ calls, p.1 ≠ "") (h2 : calls.length < u256Mod) :
    (sendAll calls initState).2 = (List.range calls.length).map Except.ok ∧
    message_count (sendAll calls initState).1 = calls.length := by
  obtain ⟨ha, hb⟩ := sendAll_ids calls initState h1
    (by simpa [initState] using h2)
  constructor
  · rw [ha, List.range_eq_range']
    rfl
  · simpa [message_count, initState] using hb

/-- Witness for C2 (amended): two concrete submissions get ids 0 and 1. -/
theorem send_ids_sequential_witness :
    (∀ p ∈ ([("a", 1), ("b", 2)] : List (String × Nat)), p.1 ≠ "") ∧
    ([("a", 1), ("b", 2)] : List (String × Nat)).length < u256Mod ∧
    ((sendAll [("a", 1), ("b", 2)] initState).2 =
        (List.range ([("a", 1), ("b", 2)] : List (String × Nat)).length).map Except.ok ∧
      message_count (sendAll [("a", 1), ("b", 2)] initState).1 =
        ([("a", 1), ("b", 2)] : List (String × Nat)).length) :=
  ⟨by decide, by decide, send_ids_sequential [("a", 1), ("b", 2)] (by decide) (by decide)⟩

/-! ### C3 -/

theorem numSends_nil : numSends [] = 0 := rfl

theorem numSends_send (c : String) (a : Nat) (rest : List Op) :
    numSends (Op.send c a :: rest) = (if c = "" then 0 else 1) + numSends rest := rfl

theorem numSends_bridge (id caller : Nat) (r : RelayOutcome) (rest : List Op) :
    numSends (Op.bridge id caller r :: rest) = numSends rest := rfl

theorem numSends_getMsg (id : Nat) (rest : List Op) :
    numSends (Op.getMsg id :: rest) = numSends rest := rfl

theorem numSends_getSender (id : Nat) (rest : List Op) :
    numSends (Op.getSender id :: rest) = numSends rest := rfl

theorem numSends_msgCount (rest : List Op) :
    numSends (Op.msgCount :: rest) = numSends rest := rfl

/-- While the counter stays below the wrap bound, every already-assigned slot
is untouched by later operations and stays below the counter. -/
theorem applyOps_preserve (id : Nat) (ops : List Op) :
    ∀ t : MsgState, id < t.count → t.count + numSends ops < u256Mod →
      (applyOps ops t).messages id = t.messages id ∧
      (applyOps ops t).senders id = t.senders id ∧
      id < (applyOps ops t).count := by
  induction ops with
  | nil => intro t h1 _; exact ⟨rfl, rfl, h1⟩
  | cons op rest ih =>
      intro t h1 h2
      cases op with
      | send c a =>
          by_cases hc : c = ""
          · subst hc
            rw [applyOps_cons]
            have hstep : step t (Op.send "" a) = t := rfl
            rw [hstep]
            refine ih t h1 ?_
            rw [numSends_send] at h2
            simpa using h2
          · rw [numSends_send, if_neg hc] at h2
            have hlt : t.count + 1 < u256Mod := by omega
            have hcnt : (step t (Op.send c a)).count = t.count + 1 := by
              show (send_message t a c).state.count = t.count + 1
              rw [send_message_of_ne t a c hc]
              exact Nat.mod_eq_of_lt hlt
            have hm : (step t (Op.send c a)).messages id = t.messages id := by
              show (send_message t a c).state.messages id = t.messages id
              rw [send_message_of_ne t a c hc]
              exact if_neg (Nat.ne_of_lt h1)
            have hsd : (step t (Op.send c a)).senders id = t.senders id := by
              show (send_message t a c).state.senders id = t.senders id
              rw [send_message_of_ne t a c hc]
              exact if_neg (Nat.ne_of_lt h1)
            rw [applyOps_cons]
            obtain ⟨p1, p2, p3⟩ := ih (step t (Op.send c a))
              (by rw [hcnt]; omega) (by rw [hcnt]; omega)
            exact ⟨p1.trans hm, p2.trans hsd, p3⟩
      | bridge bid bcaller r =>
          rw [applyOps_cons, step_bridge_eq]
          refine ih t h1 ?_
          rw [numSends_bridge] at h2
          exact h2
      | getMsg gid =>
          rw [applyOps_cons]
          refine ih t h1 ?_
          rw [numSends_getMsg] at h2
          exact h2
      | getSender gid =>
          rw [applyOps_cons]
          refine ih t h1 ?_
          rw [numSends_getSender] at h2
          exact h2
      | msgCount =>
          rw [applyOps_cons]
          refine ih t h1 ?_
          rw [numSends_msgCount] at h2
          exact h2

/-- C3 (amended): after a successful send_message(c) by account a returns id,
get_message(id) returns c and get_sender(id) returns a, and both continue to
return those values after any sequence of later operations during which the
total number of messages ever stored stays below 2 ^ 256.  (Beyond that the
U256 counter wraps and ids are reused; see the counterexample.) -/
theorem roundtrip_permanence (s : MsgState) (a : Nat) (c : String) (ops : List Op)
    (hc : c ≠ "") (hb : message_count s + 1 + numSends ops < u256Mod) :
    (send_message s a c).result = Except.ok (message_count s) ∧
    get_message (applyOps ops (send_message s a c).state) (message_count s) =
      Except.ok c ∧
    get_sender (applyOps ops (send_message s a c).state) (message_count s) =
      Except.ok a := by
  simp only [message_count] at hb ⊢
  have hres : (send_message s a c).result = Except.ok s.count := by
    rw [send_message_of_ne s a c hc]
  have hcnt : (send_message s a c).state.count = s.count + 1 := by
    rw [send_message_of_ne s a c hc]
    exact Nat.mod_eq_of_lt (by omega)
  have hmsg : (send_message s a c).state.messages s.count = c := by
    rw [send_message_of_ne s a c hc]
    exact if_pos rfl
  have hsnd : (send_message s a c).state.senders s.count = a := by
    rw [send_message_of_ne s a c hc]
    exact if_pos rfl
  obtain ⟨p1, p2, p3⟩ := applyOps_preserve s.count ops (send_message s a c).state
    (by rw [hcnt]; omega) (by rw [hcnt]; omega)
  refine ⟨hres, ?_, ?_⟩
  · unfold get_message message_count
    rw [if_neg (not_le.mpr p3), p1, hmsg]
  · unfold get_sender message_count
    rw [if_neg (not_le.mpr p3), p2, hsnd]

/-- Witness for C3 (amended) at a concrete submission and later operations. -/
theorem roundtrip_permanence_witness :
    ("hi" : String) ≠ "" ∧
    message_count initState + 1 + numSends wOps < u256Mod ∧
    ((send_message initState 5 "hi").result = Except.ok (message_count initState) ∧
      get_message (applyOps wOps (send_message initState 5 "hi").state)
        (message_count initState) = Except.ok "hi" ∧
      get_sender (applyOps wOps (send_message initState 5 "hi").state)
        (message_count initState) = Except.ok 5) :=
  ⟨by decide, by decide, roundtrip_permanence initState 5 "hi" wOps (by decide) (by decide)⟩

/-- Running k submissions of "x" (with k small enough to wrap the counter at
most once) advances the counter modulo 2 ^ 256 and leaves slot 0 intact as
long as the starting counter is at least 1. -/
theorem applyOps_replicate_send (k : Nat) :
    ∀ s : MsgState, 1 ≤ s.count → s.count < u256Mod → s.count + k ≤ u256Mod →
      (applyOps (List.replicate k (Op.send "x" 1)) s).count = (s.count + k) % u256Mod ∧
      (applyOps (List.replicate k (Op.send "x" 1)) s).messages 0 = s.messages 0 ∧
      (applyOps (List.replicate k (Op.send "x" 1)) s).senders 0 = s.senders 0 := by
  induction k with
  | zero =>
      intro s _ h2 _
      refine ⟨?_, rfl, rfl⟩
      show s.count = (s.count + 0) % u256Mod
      rw [Nat.add_zero, Nat.mod_eq_of_lt h2]
  | succ k ih =>
      intro s h1 h2 h3
      rw [List.replicate_succ, applyOps_cons]
      have hx : ("x" : String) ≠ "" := by decide
      have hcnt : (step s (Op.send "x" 1)).count = (s.count + 1) % u256Mod := by
        show (send_message s 1 "x").state.count = _
        rw [send_message_of_ne s 1 "x" hx]
      have hmsg0 : (step s (Op.send "x" 1)).messages 0 = s.messages 0 := by
        show (send_message s 1 "x").state.messages 0 = _
        rw [send_message_of_ne s 1 "x" hx]
        exact if_neg (by omega)
      have hsnd0 : (step s (Op.send "x" 1)).senders 0 = s.senders 0 := by
        show (send_message s 1 "x").state.senders 0 = _
        rw [send_message_of_ne s 1 "x" hx]
        exact if_neg (by omega)
      by_cases hw : s.count + 1 < u256Mod
      · have hcnt2 : (step s (Op.send "x" 1)).count = s.count + 1 := by
          rw [hcnt]
          exact Nat.mod_eq_of_lt hw
        obtain ⟨q1, q2, q3⟩ := ih (step s (Op.send "x" 1))
          (by rw [hcnt2]; omega) (by rw [hcnt2]; exact hw) (by rw [hcnt2]; omega)
        refine ⟨?_, q2.trans hmsg0, q3.trans hsnd0⟩
        rw [q1, hcnt2]
        have he : s.count + 1 + k = s.count + (k + 1) := by omega
        rw [he]
      · have hek : k = 0 := by omega
        have hc1 : s.count + 1 = u256Mod := by omega
        subst hek
        simp only [List.replicate_zero, applyOps_nil]
        refine ⟨?_, hmsg0, hsnd0⟩
        rw [hcnt, hc1]

/-- Counterexample to C3 as stated: after send_message("a") returns id 0,
2 ^ 256 further stores wrap the U256 counter and the last one lands on id 0
again, so get_message(0) afterwards returns "b", not "a". -/
theorem roundtrip_wrap_counterexample :
    (send_message initState 7 "a").result = Except.ok 0 ∧
    get_message (applyOps ceOps (send_message initState 7 "a").state) 0 =
      Except.ok "b" ∧
    Except.ok "b" ≠ (Except.ok "a" : Except Err String) := by
  refine ⟨rfl, ?_, by simp⟩
  have h1 : (send_message initState 7 "a").state.count = 1 := by decide
  obtain ⟨q1, q2, q3⟩ := applyOps_replicate_send (u256Mod - 1)
    (send_message initState 7 "a").state
    (by rw [h1]) (by rw [h1]; norm_num [u256Mod])
    (by rw [h1]; have := u256Mod_pos; omega)
  rw [h1] at q1
  have he : 1 + (u256Mod - 1) = u256Mod := by have := u256Mod_pos; omega
  rw [he, Nat.mod_self] at q1
  have h2 : (send_message initState 7 "a").state.messages 0 = "a" := by decide
  unfold ceOps
  rw [applyOps_append, applyOps_cons, applyOps_nil]
  have hb : ("b" : String) ≠ "" := by decide
  have hstep : step (applyOps (List.replicate (u256Mod - 1) (Op.send "x" 1))
      (send_message initState 7 "a").state) (Op.send "b" 2) =
      (send_message (applyOps (List.replicate (u256Mod - 1) (Op.send "x" 1))
        (send_message initState 7 "a").state) 2 "b").state := rfl
  rw [hstep, send_message_of_ne _ 2 "b" hb, q1]
  have hm1 : (0 + 1) % u256Mod = 1 := by norm_num [u256Mod]
  simp [get_message, message_count, hm1]

/-! ### C9 -/

theorem foldl_const_iterate {α : Type} (f : α → α) :
    ∀ (n : Nat) (x : α), (List.range n).foldl (fun y _ => f y) x = Nat.iterate f n x := by
  intro n
  induction n with
  | zero => intro x; rfl
  | succ n ih =>
      intro x
      rw [List.range_succ, List.foldl_append, ih, Function.iterate_succ_apply']
      rfl

theorem specHashRounds_eq (keccak : List Nat → List Nat) :
    ∀ n : Nat, specHashRounds keccak n = Nat.iterate keccak n (keccak seedBytes) := by
  intro n
  induction n with
  | zero => rfl
  | succ n ih =>
      show keccak (specHashRounds keccak n) = _
      rw [ih, Function.iterate_succ_apply']

theorem iterate_consZero_length :
    ∀ (n : Nat) (x : List Nat), (Nat.iterate consZero n x).length = n + x.length := by
  intro n
  induction n with
  | zero => intro x; simp
  | succ n ih =>
      intro x
      rw [Function.iterate_succ_apply']
      simp [consZero, ih]
      omega

/-- C9 (amended): for every requested iteration count N < 2 ^ 64,
compute_hash(N) runs exactly N rounds of the hash from the fixed seed —
returning hash_N where hash_0 is the hash of "stylus-compute-bench" and
hash_i the hash of hash_(i-1) — increments its call counter by 1 modulo
2 ^ 256, and never touches the Message Store.  (For N ≥ 2 ^ 64 the code
saturates the round count to 2 ^ 64 - 1; see the counterexample.) -/
theorem compute_hash_rounds (keccak : List Nat → List Nat) (w : World) (n : Nat)
    (h : n < 2 ^ 64) :
    (compute_hash keccak w n).2.1 = specHashRounds keccak n ∧
    call_count (compute_hash keccak w n).1 = (call_count w + 1) % u256Mod ∧
    (compute_hash keccak w n).1.msgS = w.msgS := by
  have hmin : min n (2 ^ 64 - 1) = n := Nat.min_eq_left (Nat.le_pred_of_lt h)
  refine ⟨?_, rfl, rfl⟩
  show (List.range (min n (2 ^ 64 - 1))).foldl (fun y _ => keccak y) (keccak seedBytes) = _
  rw [hmin, foldl_const_iterate, specHashRounds_eq]

/-- Witness for C9 (amended) at a small concrete round count. -/
theorem compute_hash_rounds_witness :
    2 < 2 ^ 64 ∧
    ((compute_hash consZero initWorld 2).2.1 = specHashRounds consZero 2 ∧
      call_count (compute_hash consZero initWorld 2).1 =
        (call_count initWorld + 1) % u256Mod ∧
      (compute_hash consZero initWorld 2).1.msgS = initWorld.msgS) :=
  ⟨by norm_num, compute_hash_rounds consZero initWorld 2 (by norm_num)⟩

/-- The hash returned by compute_hash is the saturated-count iterate of the
hash primitive on the seed hash. -/
theorem compute_hash_hash (keccak : List Nat → List Nat) (w : World) (n : Nat) :
    (compute_hash keccak w n).2.1 =
      Nat.iterate keccak (min n (2 ^ 64 - 1)) (keccak seedBytes) := by
  show (List.range (min n (2 ^ 64 - 1))).foldl (fun y _ => keccak y)
      (keccak seedBytes) = _
  rw [foldl_const_iterate]

/-- Counterexample to C9 as stated: at N = 2 ^ 64 the saturating u64
conversion makes the loop run 2 ^ 64 - 1 rounds, not 2 ^ 64, so the returned
value is hash_(2 ^ 64 - 1) and differs from the spec's hash_(2 ^ 64): with the
injective stand-in hash the two have different lengths. -/
theorem compute_hash_saturation_counterexample :
    (compute_hash consZero initWorld (2 ^ 64)).2.1 ≠
      specHashRounds consZero (2 ^ 64) := by
  intro h
  rw [compute_hash_hash, Nat.min_eq_right (Nat.sub_le _ _), specHashRounds_eq] at h
  have h2 := congrArg List.length h
  rw [iterate_consZero_length, iterate_consZero_length] at h2
  have hpos : 0 < 2 ^ 64 := by positivity
  omega

end Omega
